import Mathlib

/-!
Verification of the response-compression pipeline of `rocket_contrib`'s
`compression` module (files `src/contrib/lib/src/compression/mod.rs` and
`src/contrib/lib/src/compression/fairing.rs`), as a shallow embedding.

The embedding mirrors the Rust source:
* `Encoding` with its `Display` (`format`) and `FromStr` (`from_str`) impls;
* `MediaType` as the (top, subtype) pair the exclusion matching inspects;
* `CompressionUtils.accepts_encoding`, `already_encoded`, `skip_encoding`,
  `set_body_and_encoding` and `compress_response`;
* the `EXCLUSIONS` default list from `fairing.rs`.

External black boxes (the gzip encoder, the async materialization of the
original body) are passed in as explicit values: the encoder as a function
`List Nat → Except IOErr (List Nat)` standing for `GzEncoder::read_to_end`,
and the original body as a record carrying the result of `into_bytes()`.
-/

namespace Rocket

/-- An I/O error value (`std::io::Error`), identified by its message. -/
structure IOErr where
  msg : String
deriving DecidableEq, Repr

/-- The `Encoding` enum from `compression/mod.rs`. -/
inductive Encoding where
  | Chunked
  | Brotli
  | Gzip
  | Deflate
  | Compress
  | Identity
  | Trailers
  | EncodingExt (s : String)
deriving DecidableEq, Repr

/-- `impl Display for Encoding` — the textual token of an encoding. -/
def Encoding.format : Encoding → String
  | .Chunked => "chunked"
  | .Brotli => "br"
  | .Gzip => "gzip"
  | .Deflate => "deflate"
  | .Compress => "compress"
  | .Identity => "identity"
  | .Trailers => "trailers"
  | .EncodingExt s => s

/-- `impl FromStr for Encoding` — total because the Rust error type is
`Infallible`; unknown tokens become `EncodingExt`. -/
def Encoding.from_str (s : String) : Encoding :=
  match s with
  | "chunked" => .Chunked
  | "br" => .Brotli
  | "deflate" => .Deflate
  | "gzip" => .Gzip
  | "compress" => .Compress
  | "identity" => .Identity
  | "trailers" => .Trailers
  | _ => .EncodingExt s

/-- Whether an encoding is the extension variant. -/
def Encoding.isExt : Encoding → Bool
  | .EncodingExt _ => true
  | _ => false

/-- Modelled from the spec: `rocket::http::MediaType` (its definition lives
outside this repository) is "a (top, subtype) pair", equal iff both
components match; the response's content type is always concrete. -/
structure MediaType where
  top : String
  sub : String
deriving DecidableEq, Repr

/-- A request, viewed through the only part the pipeline reads: the list of
values of its `Accept-Encoding` header (empty list: header absent). -/
structure Request where
  acceptEncoding : List String
deriving DecidableEq, Repr

deriving instance DecidableEq for Except

/-- A response body slot: either the original body (carrying the result its
`into_bytes()` materialization would produce) or the compressed streamed
wrapper installed by the pipeline — a lazy sequence of chunk-or-failure
units. -/
inductive Body where
  | orig (intoBytes : Except IOErr (List Nat))
  | gzipped (units : List (Except IOErr (List Nat)))
deriving DecidableEq, Repr

/-- Reading a unit stream to completion. -/
def Body.collect : List (Except IOErr (List Nat)) → Except IOErr (List Nat)
  | [] => .ok []
  | .error e :: _ => .error e
  | .ok c :: rest => (Body.collect rest).map (fun t => c ++ t)

/-- `Body::into_bytes()`: the original body yields its materialization
result; reading a streamed wrapper to the end concatenates its chunks up to
the first failed unit. -/
def Body.into_bytes : Body → Except IOErr (List Nat)
  | .orig r => r
  | .gzipped units => Body.collect units

/-- A response, viewed through the fields the pipeline touches: the values
of its `Content-Encoding` header, its declared content type, and its body
slot. -/
structure Response where
  contentEncoding : List String
  contentType : Option MediaType
  body : Option Body
deriving DecidableEq, Repr

/-- The Unicode `White_Space` code points, the set `char::is_whitespace`
tests in Rust's `str::trim`. -/
def rustWhitespace : List Char :=
  [Char.ofNat 0x09, Char.ofNat 0x0A, Char.ofNat 0x0B, Char.ofNat 0x0C,
   Char.ofNat 0x0D, Char.ofNat 0x20, Char.ofNat 0x85, Char.ofNat 0xA0,
   Char.ofNat 0x1680, Char.ofNat 0x2000, Char.ofNat 0x2001, Char.ofNat 0x2002,
   Char.ofNat 0x2003, Char.ofNat 0x2004, Char.ofNat 0x2005, Char.ofNat 0x2006,
   Char.ofNat 0x2007, Char.ofNat 0x2008, Char.ofNat 0x2009, Char.ofNat 0x200A,
   Char.ofNat 0x2028, Char.ofNat 0x2029, Char.ofNat 0x202F, Char.ofNat 0x205F,
   Char.ofNat 0x3000]

/-- Rust's `char::is_whitespace`. -/
def rustIsWhitespace (c : Char) : Bool :=
  c ∈ rustWhitespace

/-- `str::split(sep)` over the character list: splits at every separator,
keeping empty pieces (`"".split(',')` yields one empty piece). -/
def splitChars (sep : Char) : List Char → List (List Char)
  | [] => [[]]
  | c :: rest =>
      if c = sep then [] :: splitChars sep rest
      else
        match splitChars sep rest with
        | [] => [[c]]
        | g :: gs => (c :: g) :: gs

/-- Rust's `str::split(sep)`, as strings. -/
def rustSplit (sep : Char) (s : String) : List String :=
  (splitChars sep s.data).map (fun l => String.mk l)

/-- Rust's `str::trim`: drop Unicode whitespace from both ends. -/
def rustTrim (s : String) : String :=
  String.mk
    (((s.data.dropWhile rustIsWhitespace).reverse.dropWhile
      rustIsWhitespace).reverse)

namespace CompressionUtils

/-- `CompressionUtils::accepts_encoding`: flat-map the `Accept-Encoding`
header values over `split(',')`, trim each token, and test exact equality
with `encoding`. -/
def accepts_encoding (request : Request) (encoding : String) : Bool :=
  ((request.acceptEncoding.flatMap (fun accept => rustSplit ',' accept)).map
    (fun accept => rustTrim accept)).any (fun accept => accept == encoding)

/-- `CompressionUtils::already_encoded`: the response carries at least one
`Content-Encoding` header value. -/
def already_encoded (response : Response) : Bool :=
  !response.contentEncoding.isEmpty

/-- `CompressionUtils::set_body_and_encoding`: set the `Content-Encoding`
header (replacing any previous values of that header) and install the
streamed body. -/
def set_body_and_encoding (response : Response) (body : Body)
    (encoding : Encoding) : Response :=
  { response with
    contentEncoding := [encoding.format]
    body := some body }

/-- The per-exclusion test inlined in `CompressionUtils::skip_encoding`:
wildcard-subtype exclusions compare top types only, concrete exclusions
compare whole media types. -/
def matchesExclusion (content_type exc_media_type : MediaType) : Bool :=
  if exc_media_type.sub == "*" then
    exc_media_type.top == content_type.top
  else
    exc_media_type == content_type

/-- `CompressionUtils::skip_encoding`: no content type is never excluded;
otherwise any matching exclusion triggers the skip. -/
def skip_encoding (content_type : Option MediaType)
    (exclusions : List MediaType) : Bool :=
  match content_type with
  | some content_type =>
      exclusions.any (fun exc_media_type =>
        matchesExclusion content_type exc_media_type)
  | none => false

/-- The gzip compression attempt inside `compress_response`, given the
encoder (`GzEncoder::read_to_end` as a black box) and the result of
`plain.into_bytes()`: an `Err` from `into_bytes` is replaced by the empty
vector (`unwrap_or_else(Vec::new)`); an encoder failure becomes a stream of
a single failed unit; success becomes a stream of a single chunk. -/
def gzipStream (gzip : List Nat → Except IOErr (List Nat))
    (intoBytes : Except IOErr (List Nat)) : List (Except IOErr (List Nat)) :=
  let body := intoBytes.toOption.getD []
  match gzip body with
  | .error err => [.error err]
  | .ok buf => [.ok buf]

/-- `CompressionUtils::compress_response`. `gzipEnabled` stands for
`cfg!(feature = "gzip_compression")`; `gzip` is the encoder black box. The
Brotli branch is commented out in the source and hence absent here. -/
def compress_response (gzipEnabled : Bool)
    (gzip : List Nat → Except IOErr (List Nat)) (request : Request)
    (response : Response) (exclusions : List MediaType) : Response :=
  if already_encoded response then
    response
  else if skip_encoding response.contentType exclusions then
    response
  else if gzipEnabled && accepts_encoding request "gzip" then
    match response.body with
    | some plain =>
        set_body_and_encoding response
          (Body.gzipped (gzipStream gzip plain.into_bytes)) Encoding.Gzip
    | none => response
  else
    response

end CompressionUtils

/-- The `EXCLUSIONS` default list from `fairing.rs` (the six media types the
fairing excludes by default). -/
def EXCLUSIONS : List MediaType :=
  [⟨"application", "gzip"⟩, ⟨"application", "zip"⟩, ⟨"image", "*"⟩,
   ⟨"video", "*"⟩, ⟨"application", "wasm"⟩, ⟨"application", "octet-stream"⟩]

/-- `Compression::on_response` from `fairing.rs`: delegates to
`compress_response` with the default exclusion list. -/
def Compression.on_response (gzipEnabled : Bool)
    (gzip : List Nat → Except IOErr (List Nat)) (request : Request)
    (response : Response) : Response :=
  CompressionUtils.compress_response gzipEnabled gzip request response
    EXCLUSIONS

/-! ## Helper lemmas -/

/-- `List.any` is invariant under permutation of the list. -/
theorem anyPermEq {α : Type} {l l' : List α} (h : l.Perm l') (f : α → Bool) :
    l.any f = l'.any f := by
  rw [Bool.eq_iff_iff, List.any_eq_true, List.any_eq_true]
  exact ⟨fun ⟨x, hx, hf⟩ => ⟨x, h.mem_iff.mp hx, hf⟩,
         fun ⟨x, hx, hf⟩ => ⟨x, h.mem_iff.mpr hx, hf⟩⟩

namespace CompressionUtils

/-- When every guard passes and a body is present, `compress_response`
installs the gzip wrapper via `set_body_and_encoding`. -/
theorem compress_response_applies {gzipEnabled : Bool}
    {gzip : List Nat → Except IOErr (List Nat)} {request : Request}
    {response : Response} {exclusions : List MediaType} {b : Body}
    (h1 : already_encoded response = false)
    (h2 : skip_encoding response.contentType exclusions = false)
    (h3 : (gzipEnabled && accepts_encoding request "gzip") = true)
    (hb : response.body = some b) :
    compress_response gzipEnabled gzip request response exclusions =
      set_body_and_encoding response
        (Body.gzipped (gzipStream gzip b.into_bytes)) Encoding.Gzip := by
  unfold compress_response
  rw [h1, h2, h3, hb]
  rfl

/-- When some guard fails (already encoded, excluded content type, gzip not
negotiated, or no body), `compress_response` is the identity. -/
theorem compress_response_noop {gzipEnabled : Bool}
    {gzip : List Nat → Except IOErr (List Nat)} {request : Request}
    {response : Response} {exclusions : List MediaType}
    (h : already_encoded response = true ∨
         skip_encoding response.contentType exclusions = true ∨
         (gzipEnabled && accepts_encoding request "gzip") = false ∨
         response.body = none) :
    compress_response gzipEnabled gzip request response exclusions =
      response := by
  unfold compress_response
  rcases h with h | h | h | h
  · rw [h]
    rfl
  · rw [h]
    cases already_encoded response <;> rfl
  · rw [h]
    cases already_encoded response <;>
      cases skip_encoding response.contentType exclusions <;> rfl
  · rw [h]
    cases already_encoded response <;>
      cases skip_encoding response.contentType exclusions <;>
        cases gzipEnabled && accepts_encoding request "gzip" <;> rfl

/-- Every run of `compress_response` is either a complete no-op or a full
`set_body_and_encoding` on a present body with all guards passed. -/
theorem compress_response_cases (gzipEnabled : Bool)
    (gzip : List Nat → Except IOErr (List Nat)) (request : Request)
    (response : Response) (exclusions : List MediaType) :
    compress_response gzipEnabled gzip request response exclusions =
      response ∨
    (already_encoded response = false ∧
     skip_encoding response.contentType exclusions = false ∧
     (gzipEnabled && accepts_encoding request "gzip") = true ∧
     ∃ b, response.body = some b ∧
       compress_response gzipEnabled gzip request response exclusions =
         set_body_and_encoding response
           (Body.gzipped (gzipStream gzip b.into_bytes)) Encoding.Gzip) := by
  cases h1 : already_encoded response with
  | true => exact Or.inl (compress_response_noop (Or.inl h1))
  | false =>
  cases h2 : skip_encoding response.contentType exclusions with
  | true => exact Or.inl (compress_response_noop (Or.inr (Or.inl h2)))
  | false =>
  cases h3 : gzipEnabled && accepts_encoding request "gzip" with
  | false => exact Or.inl (compress_response_noop (Or.inr (Or.inr (Or.inl h3))))
  | true =>
  cases hb : response.body with
  | none => exact Or.inl (compress_response_noop (Or.inr (Or.inr (Or.inr hb))))
  | some b =>
      exact Or.inr ⟨rfl, rfl, rfl, b, rfl, compress_response_applies h1 h2 h3 hb⟩

end CompressionUtils

/-! ## Claim theorems -/

/-- C6: `Encoding` parse and format are a lossless round-trip:
`from_str (format e) = e` for every non-extension variant and
`format (from_str s) = s` for every input string; parsing is total (the
Rust error type is `Infallible`). -/
theorem C6_encoding_roundtrip :
    (∀ e : Encoding, e.isExt = false → Encoding.from_str e.format = e) ∧
    (∀ s : String, (Encoding.from_str s).format = s) := by
  constructor
  · intro e he
    cases e <;> first | rfl | simp [Encoding.isExt] at he
  · intro s
    unfold Encoding.from_str
    split <;> simp_all [Encoding.format]

/-- Witness for C6 at the `Gzip` variant. -/
theorem C6_encoding_roundtrip_witness :
    Encoding.from_str (Encoding.format Encoding.Gzip) = Encoding.Gzip :=
  C6_encoding_roundtrip.1 Encoding.Gzip rfl

/-- C5: a wildcard-subtype exclusion matches exactly when the top types are
equal, independently of the candidate's subtype; a concrete exclusion
matches exactly when both components are equal. -/
theorem C5_matches_wildcard_and_exact (m e : MediaType) :
    (e.sub = "*" → CompressionUtils.matchesExclusion m e = (m.top == e.top)) ∧
    (e.sub ≠ "*" → CompressionUtils.matchesExclusion m e = (m == e)) := by
  constructor
  · intro h
    simp only [CompressionUtils.matchesExclusion]
    rw [if_pos (by simp [h])]
    exact BEq.comm
  · intro h
    simp only [CompressionUtils.matchesExclusion]
    rw [if_neg (by simp [h])]
    exact BEq.comm

/-- Witness for C5 at `image/png` against the wildcard exclusion
`image/*`. -/
theorem C5_matches_wildcard_and_exact_witness :
    CompressionUtils.matchesExclusion ⟨"image", "png"⟩ ⟨"image", "*"⟩ =
      (("image" : String) == "image") :=
  (C5_matches_wildcard_and_exact ⟨"image", "png"⟩ ⟨"image", "*"⟩).1 rfl

/-- C7: the exclusion check is false when no content type is present, is
the boolean OR of the per-exclusion matches when one is, and its result is
invariant under any permutation of the exclusion sequence. -/
theorem C7_skip_encoding_pure_perm (ct : Option MediaType)
    (exclusions exclusions' : List MediaType)
    (h : exclusions.Perm exclusions') :
    CompressionUtils.skip_encoding none exclusions = false ∧
    (∀ c, CompressionUtils.skip_encoding (some c) exclusions =
      exclusions.any (fun e => CompressionUtils.matchesExclusion c e)) ∧
    CompressionUtils.skip_encoding ct exclusions =
      CompressionUtils.skip_encoding ct exclusions' := by
  refine ⟨rfl, fun c => rfl, ?_⟩
  cases ct with
  | none => rfl
  | some c => exact anyPermEq h _

/-- Witness for C7 on a two-element exclusion list and its swap. -/
theorem C7_skip_encoding_pure_perm_witness :
    CompressionUtils.skip_encoding (some ⟨"image", "png"⟩)
      [⟨"image", "*"⟩, ⟨"video", "*"⟩] =
    CompressionUtils.skip_encoding (some ⟨"image", "png"⟩)
      [⟨"video", "*"⟩, ⟨"image", "*"⟩] :=
  (C7_skip_encoding_pure_perm (some ⟨"image", "png"⟩)
    [⟨"image", "*"⟩, ⟨"video", "*"⟩] [⟨"video", "*"⟩, ⟨"image", "*"⟩]
    (List.Perm.swap (⟨"video", "*"⟩ : MediaType) ⟨"image", "*"⟩ [])).2.2

/-- C1: for a request and response reaching the negotiation step (not
already encoded, content type not excluded) with a body present, the
Accept-Encoding header is interpreted as comma-split, trimmed,
case-sensitively matched tokens, and Gzip is applied exactly when the token
"gzip" is among them and gzip support is enabled; otherwise nothing is
applied. -/
theorem C1_gzip_negotiation (gzipEnabled : Bool)
    (gzip : List Nat → Except IOErr (List Nat)) (request : Request)
    (response : Response) (exclusions : List MediaType) (b : Body)
    (h1 : CompressionUtils.already_encoded response = false)
    (h2 : CompressionUtils.skip_encoding response.contentType exclusions =
      false)
    (hb : response.body = some b) :
    (CompressionUtils.accepts_encoding request "gzip" = true ↔
      "gzip" ∈ (request.acceptEncoding.flatMap
        (fun a => rustSplit ',' a)).map (fun a => rustTrim a)) ∧
    (gzipEnabled = true →
      CompressionUtils.accepts_encoding request "gzip" = true →
      CompressionUtils.compress_response gzipEnabled gzip request response
          exclusions =
        CompressionUtils.set_body_and_encoding response
          (Body.gzipped (CompressionUtils.gzipStream gzip b.into_bytes))
          Encoding.Gzip) ∧
    ((gzipEnabled && CompressionUtils.accepts_encoding request "gzip") =
        false →
      CompressionUtils.compress_response gzipEnabled gzip request response
          exclusions = response) := by
  refine ⟨?_, ?_, ?_⟩
  · simp only [CompressionUtils.accepts_encoding, List.any_eq_true,
      List.mem_map, List.mem_flatMap, beq_iff_eq]
    aesop
  · intro hg ha
    exact CompressionUtils.compress_response_applies h1 h2
      (by rw [hg, ha]; rfl) hb
  · intro hf
    exact CompressionUtils.compress_response_noop (Or.inr (Or.inr (Or.inl hf)))

/-- Witness for C1 at Scenario E: `Accept-Encoding: gzip, br` with only
gzip enabled selects Gzip. -/
theorem C1_gzip_negotiation_witness :
    CompressionUtils.compress_response true (fun b => .ok b) ⟨["gzip, br"]⟩
      ⟨[], some ⟨"text", "html"⟩, some (.orig (.ok [104]))⟩ EXCLUSIONS =
    CompressionUtils.set_body_and_encoding
      ⟨[], some ⟨"text", "html"⟩, some (.orig (.ok [104]))⟩
      (Body.gzipped (CompressionUtils.gzipStream (fun b => .ok b)
        (Body.orig (.ok [104])).into_bytes)) Encoding.Gzip :=
  (C1_gzip_negotiation true (fun b => .ok b) ⟨["gzip, br"]⟩
    ⟨[], some ⟨"text", "html"⟩, some (.orig (.ok [104]))⟩ EXCLUSIONS
    (Body.orig (.ok [104])) rfl (by decide) rfl).2.1 rfl (by decide)

/-- C2 counterexample: an I/O error reading the original source body is
swallowed by `unwrap_or_else(Vec::new)`: on this concrete request/response
the failed source read produces a stream of one successful unit (the gzip
of the empty input) and no failed unit at all, refuting the claim that any
failure of the compression attempt yields exactly one failed unit. -/
theorem C2_source_error_swallowed :
    CompressionUtils.compress_response true (fun b => .ok b) ⟨["gzip"]⟩
      ⟨[], none, some (.orig (.error ⟨"source read failure"⟩))⟩ [] =
      ⟨["gzip"], none, some (.gzipped [.ok []])⟩ ∧
    ∀ e : IOErr, Except.error e ∉ [Except.ok ([] : List Nat)] := by
  refine ⟨by decide, ?_⟩
  intro e
  simp

/-- C2 (amended): the compression attempt always yields a stream of exactly
one unit; that unit is a failed unit exactly when the gzip encoder itself
failed (never raised synchronously — the error sits in the stream); an I/O
error from reading the source body is swallowed, the encoder running on the
empty byte vector instead. -/
theorem C2_single_unit_encoder_errors
    (gzip : List Nat → Except IOErr (List Nat))
    (intoBytes : Except IOErr (List Nat)) :
    (∃ u, CompressionUtils.gzipStream gzip intoBytes = [u]) ∧
    (∀ e, CompressionUtils.gzipStream gzip intoBytes = [Except.error e] ↔
      gzip (intoBytes.toOption.getD []) = Except.error e) ∧
    (∀ e, intoBytes = Except.error e →
      CompressionUtils.gzipStream gzip intoBytes =
        CompressionUtils.gzipStream gzip (Except.ok [])) := by
  refine ⟨?_, ?_, ?_⟩
  · simp only [CompressionUtils.gzipStream]
    cases gzip (intoBytes.toOption.getD []) <;> exact ⟨_, rfl⟩
  · intro e
    simp only [CompressionUtils.gzipStream]
    cases hg : gzip (intoBytes.toOption.getD []) <;> simp [hg]
  · intro e he
    subst he
    rfl

/-- Witness for C2 (amended): a failed source read compresses like the
empty body. -/
theorem C2_single_unit_encoder_errors_witness :
    CompressionUtils.gzipStream (fun b => .ok b)
      (Except.error ⟨"source read failure"⟩) =
    CompressionUtils.gzipStream (fun b => .ok b) (Except.ok []) :=
  (C2_single_unit_encoder_errors (fun b => .ok b)
    (Except.error ⟨"source read failure"⟩)).2.2 ⟨"source read failure"⟩ rfl

/-- C3: the transform either is a complete no-op, or — starting from a
response with no Content-Encoding header and a present body — sets the
header and installs the compressed wrapper in the same step, so that the
header is set iff the body was replaced and no mismatched header/body pair
can arise; a bodiless response is always a silent no-op. -/
theorem C3_header_iff_body_replaced (gzipEnabled : Bool)
    (gzip : List Nat → Except IOErr (List Nat)) (request : Request)
    (response : Response) (exclusions : List MediaType) :
    (response.body = none →
      CompressionUtils.compress_response gzipEnabled gzip request response
        exclusions = response) ∧
    (CompressionUtils.compress_response gzipEnabled gzip request response
        exclusions = response ∨
      (response.contentEncoding = [] ∧ ∃ b, response.body = some b ∧
        CompressionUtils.compress_response gzipEnabled gzip request response
          exclusions =
          CompressionUtils.set_body_and_encoding response
            (Body.gzipped (CompressionUtils.gzipStream gzip b.into_bytes))
            Encoding.Gzip)) := by
  constructor
  · intro hb
    exact CompressionUtils.compress_response_noop (Or.inr (Or.inr (Or.inr hb)))
  · rcases CompressionUtils.compress_response_cases gzipEnabled gzip request
      response exclusions with h | ⟨h1, _, _, b, hb, happ⟩
    · exact Or.inl h
    · refine Or.inr ⟨?_, b, hb, happ⟩
      simpa [CompressionUtils.already_encoded, List.isEmpty_iff] using h1

/-- Witness for C3: a bodiless response is left unchanged. -/
theorem C3_header_iff_body_replaced_witness :
    CompressionUtils.compress_response true (fun b => .ok b) ⟨["gzip"]⟩
      ⟨[], some ⟨"text", "html"⟩, none⟩ EXCLUSIONS =
      ⟨[], some ⟨"text", "html"⟩, none⟩ :=
  (C3_header_iff_body_replaced true (fun b => .ok b) ⟨["gzip"]⟩
    ⟨[], some ⟨"text", "html"⟩, none⟩ EXCLUSIONS).1 rfl

/-- C4: a response that already carries any Content-Encoding header value
is returned completely unchanged, regardless of content type or accepted
encodings. -/
theorem C4_already_encoded_untouched (gzipEnabled : Bool)
    (gzip : List Nat → Except IOErr (List Nat)) (request : Request)
    (response : Response) (exclusions : List MediaType)
    (h : response.contentEncoding ≠ []) :
    CompressionUtils.compress_response gzipEnabled gzip request response
      exclusions = response := by
  apply CompressionUtils.compress_response_noop
  left
  simpa [CompressionUtils.already_encoded, List.isEmpty_iff] using h

/-- Witness for C4 at Scenario C: `Content-Encoding: identity` stays
untouched. -/
theorem C4_already_encoded_untouched_witness :
    CompressionUtils.compress_response true (fun b => .ok b) ⟨["gzip"]⟩
      ⟨["identity"], some ⟨"text", "html"⟩, some (.orig (.ok [1]))⟩
      EXCLUSIONS =
      ⟨["identity"], some ⟨"text", "html"⟩, some (.orig (.ok [1]))⟩ :=
  C4_already_encoded_untouched true (fun b => .ok b) ⟨["gzip"]⟩
    ⟨["identity"], some ⟨"text", "html"⟩, some (.orig (.ok [1]))⟩
    EXCLUSIONS (by decide)

/-- C8: the default exclusion list is exactly the six stated media types;
a caller-supplied list fully replaces it (no merging): under the custom
list `["application/x-custom"]` an `image/png` response — excluded by the
defaults — is compressed. -/
theorem C8_default_exclusions_replaced :
    EXCLUSIONS = [⟨"application", "gzip"⟩, ⟨"application", "zip"⟩,
      ⟨"image", "*"⟩, ⟨"video", "*"⟩, ⟨"application", "wasm"⟩,
      ⟨"application", "octet-stream"⟩] ∧
    CompressionUtils.compress_response true (fun b => .ok b) ⟨["gzip"]⟩
      ⟨[], some ⟨"image", "png"⟩, some (.orig (.ok [1]))⟩ EXCLUSIONS =
      ⟨[], some ⟨"image", "png"⟩, some (.orig (.ok [1]))⟩ ∧
    CompressionUtils.compress_response true (fun b => .ok b) ⟨["gzip"]⟩
      ⟨[], some ⟨"image", "png"⟩, some (.orig (.ok [1]))⟩
      [⟨"application", "x-custom"⟩] =
      ⟨["gzip"], some ⟨"image", "png"⟩, some (.gzipped [.ok [1]])⟩ :=
  ⟨rfl, by decide, by decide⟩

/-- C9: a request with no Accept-Encoding header accepts no token at all,
and the transform leaves the response completely unchanged. -/
theorem C9_no_accept_encoding_noop (gzipEnabled : Bool)
    (gzip : List Nat → Except IOErr (List Nat)) (request : Request)
    (response : Response) (exclusions : List MediaType)
    (h : request.acceptEncoding = []) :
    (∀ encoding, CompressionUtils.accepts_encoding request encoding =
      false) ∧
    CompressionUtils.compress_response gzipEnabled gzip request response
      exclusions = response := by
  have ha : ∀ encoding,
      CompressionUtils.accepts_encoding request encoding = false := by
    intro encoding
    simp [CompressionUtils.accepts_encoding, h]
  refine ⟨ha,
    CompressionUtils.compress_response_noop (Or.inr (Or.inr (Or.inl ?_)))⟩
  rw [ha "gzip", Bool.and_false]

/-- Witness for C9: an ordinary compressible response is untouched when the
request sends no Accept-Encoding header. -/
theorem C9_no_accept_encoding_noop_witness :
    CompressionUtils.compress_response true (fun b => .ok b) ⟨[]⟩
      ⟨[], some ⟨"text", "html"⟩, some (.orig (.ok [1]))⟩ EXCLUSIONS =
      ⟨[], some ⟨"text", "html"⟩, some (.orig (.ok [1]))⟩ :=
  (C9_no_accept_encoding_noop true (fun b => .ok b) ⟨[]⟩
    ⟨[], some ⟨"text", "html"⟩, some (.orig (.ok [1]))⟩ EXCLUSIONS rfl).2

/-- C10: whenever the pipeline changes the Content-Encoding header it sets
it to exactly the string "gzip"; no other encoding is ever produced (the
Brotli branch is commented out). -/
theorem C10_only_gzip_header (gzipEnabled : Bool)
    (gzip : List Nat → Except IOErr (List Nat)) (request : Request)
    (response : Response) (exclusions : List MediaType) :
    (CompressionUtils.compress_response gzipEnabled gzip request response
        exclusions).contentEncoding = response.contentEncoding ∨
    (CompressionUtils.compress_response gzipEnabled gzip request response
        exclusions).contentEncoding = ["gzip"] := by
  rcases CompressionUtils.compress_response_cases gzipEnabled gzip request
    response exclusions with h | ⟨_, _, _, b, hb, happ⟩
  · exact Or.inl (by rw [h])
  · exact Or.inr (by rw [happ]; rfl)

end Rocket
